import Mathlib

/-!
Verification of the financial aggregation logic of the fontElectronicShop
front end: the dashboard chart builders (salesByDay, salesVsExpenses,
topProducts), the transaction-page totals (totalItemsSold), the low-stock
presentation tiers, and the transaction form handlers
(handleQuantityChange, handleSubmit).

Timestamps are modelled at calendar-day granularity as integers counting
days since 1970-01-01 in the local time zone (day 0 = Thursday
1970-01-01).  The JavaScript code formats a date with
toLocaleDateString with two-digit day and month, producing a
"dd/mm" label; that label is modelled as the pair (day, month).
Because both components are zero-padded to two digits, JavaScript string
comparison of two labels coincides with the lexicographic order on the
(day, month) pairs, which is what keyOrder below encodes.
Monetary amounts are modelled as integers.
-/

namespace ShopAgg

/-- The three transaction kinds accepted by the application. -/
inductive TxnType where
  | Sale
  | Expense
  | Withdrawal
deriving DecidableEq

/-- A transaction row as consumed by the Dashboard and Transactions pages:
kind, optional resolved product name, optional quantity, amount, and the
creation timestamp reduced to its local calendar day number. -/
structure Txn where
  id : String
  type : TxnType
  product : Option String
  quantity : Option Nat
  amount : Int
  created_at : Int
deriving DecidableEq

/-- Gregorian calendar date (year, month, day) of a day number, using the
standard civil-from-days conversion; month is 1..12 and day is 1..31. -/
def civilFromDays (z0 : Int) : Int × Nat × Nat :=
  let z := z0 + 719468
  let era := z / 146097
  let doe := (z % 146097).toNat
  let yoe := (doe - doe / 1460 + doe / 36524 - doe / 146096) / 365
  let doy := doe - (365 * yoe + yoe / 4 - yoe / 100)
  let mp := (5 * doy + 2) / 153
  let d := doy - (153 * mp + 2) / 5 + 1
  let m := if mp < 10 then mp + 3 else mp - 9
  ((yoe : Int) + era * 400 + (if m ≤ 2 then 1 else 0), m, d)

/-- The "dd/mm" chart label of a day number, as the pair (day, month);
this is what toLocaleDateString with two-digit day and month produces.
The year is not part of the label. -/
def dayKey (n : Int) : Nat × Nat :=
  ((civilFromDays n).2.2, (civilFromDays n).2.1)

/-- Day of week of a day number, with the JavaScript getDay convention:
0 = Sunday, 1 = Monday, ..., 6 = Saturday (day 0, 1970-01-01, was a
Thursday, hence the offset 4). -/
def dayOfWeek (n : Int) : Int :=
  (n + 4) % 7

/-- The Monday that begins the week of day n, computed exactly as the
Dashboard does: it subtracts getDay() - 1 days, or 6 days when getDay()
is 0 (Sunday), via setDate arithmetic. -/
def mondayOf (n : Int) : Int :=
  n - (dayOfWeek n + 6) % 7

/-- Decidable test matching `t.type === "Sale"`. -/
def isSale (t : Txn) : Bool :=
  t.type == TxnType.Sale

/-- Decidable test matching `t.type === "Expense" || t.type === "Withdrawal"`. -/
def isExpenseLike (t : Txn) : Bool :=
  t.type == TxnType.Expense || t.type == TxnType.Withdrawal

/-- Decidable test matching the truthiness of `t.product?.name`:
a product object is present and its name is a nonempty string. -/
def isNamedSale (t : Txn) : Bool :=
  isSale t && (match t.product with
    | some n => !(n == "")
    | none => false)

/-- Resolved product name of a transaction (`t.product!.name`). -/
def nameOf (t : Txn) : String :=
  t.product.getD ""

/-- Record-accumulation step shared by the three chart builders: a
JavaScript object used as a map from keys to accumulated values is
modelled as a total function with an explicit default. -/
def insertKey {β : Type} [DecidableEq β] (acc : List β) (k : β) : List β :=
  if k ∈ acc then acc else acc ++ [k]

/-- Keys of a JavaScript object built by iterating l and writing the key
f x for each element, listed in insertion order (first occurrence),
which is the order Object.entries enumerates string keys. -/
def objKeys {α β : Type} [DecidableEq β] (f : α → β) (l : List α) : List β :=
  l.foldl (fun acc x => insertKey acc (f x)) []

/-- One point of the daily sales chart: a "dd/mm" label and the summed
sales amount. -/
structure DayPoint where
  date : Nat × Nat
  ventes : Int
deriving DecidableEq

/-- The map built by the first forEach of salesByDay: for each Sale
transaction, `map[day] = (map[day] || 0) + t.amount` keyed by the
"dd/mm" label of its creation day. -/
def salesMap (ts : List Txn) : Nat × Nat → Int :=
  (ts.filter isSale).foldl
    (fun m t => fun k => if k = dayKey t.created_at then m k + t.amount else m k)
    (fun _ => 0)

/-- Labels of the map built by salesByDay, in insertion order. -/
def salesKeys (ts : List Txn) : List (Nat × Nat) :=
  objKeys (fun t => dayKey t.created_at) (ts.filter isSale)

/-- Day numbers enumerated by the `while (cur <= end)` loop of
salesByDay: every day from d0 to d1 inclusive, empty when d0 > d1. -/
def rangeDays (d0 d1 : Int) : List Int :=
  if d0 ≤ d1 then (List.range ((d1 - d0).toNat + 1)).map (fun i : Nat => d0 + (i : Int)) else []

/-- The salesByDay chart data.  The range argument carries the optional
from and to bounds returned by getDateRange (none models an empty date
string).  When both bounds are present the loop emits one point per day
of the range with `map[key] || 0`; otherwise Object.entries of the map
is returned directly, in key insertion order and unsorted. -/
def salesByDay (range : Option Int × Option Int) (ts : List Txn) : List DayPoint :=
  match range with
  | (some d0, some d1) =>
      (rangeDays d0 d1).map (fun d => { date := dayKey d, ventes := salesMap ts (dayKey d) })
  | _ =>
      (salesKeys ts).map (fun k => { date := k, ventes := salesMap ts k })

/-- One bar group of the weekly chart: the "dd/mm" label of a week start
plus the summed sales and expense amounts. -/
structure WeekPoint where
  semaine : Nat × Nat
  ventes : Int
  depenses : Int
deriving DecidableEq

/-- The "dd/mm" label under which salesVsExpenses buckets a transaction:
the label of the Monday beginning its week. -/
def weekKey (t : Txn) : Nat × Nat :=
  dayKey (mondayOf t.created_at)

/-- The map built by the forEach of salesVsExpenses: every transaction
creates its bucket, Sale amounts accumulate into the first component
(ventes) and Expense or Withdrawal amounts into the second (dépenses). -/
def weekMap (ts : List Txn) : Nat × Nat → Int × Int :=
  ts.foldl
    (fun m t => fun k =>
      if k = weekKey t then
        ((m k).1 + (if isSale t then t.amount else 0),
         (m k).2 + (if isExpenseLike t then t.amount else 0))
      else m k)
    (fun _ => (0, 0))

/-- Week labels present in the data, in insertion order. -/
def weekKeys (ts : List Txn) : List (Nat × Nat) :=
  objKeys weekKey ts

/-- Ascending order on "dd/mm" labels as JavaScript string comparison
sees them: day first, then month, both numerically (the labels are
zero-padded to two digits, so string order and numeric lexicographic
order agree). -/
def keyOrder (a b : Nat × Nat) : Prop :=
  a.1 < b.1 ∨ (a.1 = b.1 ∧ a.2 ≤ b.2)

instance : DecidableRel keyOrder := fun a b => by
  unfold keyOrder
  infer_instance

instance : IsTotal (Nat × Nat) keyOrder := by
  constructor
  intro a b
  unfold keyOrder
  omega

instance : IsTrans (Nat × Nat) keyOrder := by
  constructor
  intro a b c
  unfold keyOrder
  omega

/-- The salesVsExpenses chart data: the entries of the week map, sorted
ascending by label string, each mapped to a WeekPoint. -/
def salesVsExpenses (ts : List Txn) : List WeekPoint :=
  (List.insertionSort keyOrder (weekKeys ts)).map
    (fun k => { semaine := k, ventes := (weekMap ts k).1, depenses := (weekMap ts k).2 })

/-- One row of the top-product ranking: product name, total quantity,
total revenue. -/
structure ProductPoint where
  produit : String
  quantite : Nat
  montant : Int
deriving DecidableEq

/-- The map built by topProducts over Sale transactions with a resolvable
product name: per name, `quantite += t.quantity || 0` and
`montant += t.amount`. -/
def prodMap (ts : List Txn) : String → Nat × Int :=
  (ts.filter isNamedSale).foldl
    (fun m t => fun k =>
      if k = nameOf t then ((m k).1 + t.quantity.getD 0, (m k).2 + t.amount)
      else m k)
    (fun _ => (0, 0))

/-- Product names present in the ranking map, in insertion order. -/
def prodKeys (ts : List Txn) : List String :=
  objKeys nameOf (ts.filter isNamedSale)

/-- Descending-revenue order used by the comparator
`(a, b) => b.montant - a.montant`. -/
def montantOrder (a b : ProductPoint) : Prop :=
  b.montant ≤ a.montant

instance : DecidableRel montantOrder := fun a b => by
  unfold montantOrder
  infer_instance

instance : IsTotal ProductPoint montantOrder := by
  constructor
  intro a b
  unfold montantOrder
  omega

instance : IsTrans ProductPoint montantOrder := by
  constructor
  intro a b c
  unfold montantOrder
  omega

/-- The topProducts ranking: entries of the per-name map, sorted by
descending revenue, truncated to the first 8 by slice(0, 8). -/
def topProducts (ts : List Txn) : List ProductPoint :=
  ((List.insertionSort montantOrder
      ((prodKeys ts).map
        (fun n => { produit := n, quantite := (prodMap ts n).1, montant := (prodMap ts n).2 }))).take 8)

/-- The Transactions page aggregate: sum of `t.quantity || 0` over the
Sale transactions of the (already filtered) list. -/
def totalItemsSold (ts : List Txn) : Nat :=
  (ts.filter isSale).foldl (fun s t => s + t.quantity.getD 0) 0

/-- Specification-side sum: total amount of the Sale transactions whose
creation timestamp falls on the calendar day d. -/
def sumSaleAmountsOnDay (ts : List Txn) (d : Int) : Int :=
  ((ts.filter (fun t => isSale t && decide (t.created_at = d))).map (fun t => t.amount)).sum

/-- Specification-side sum: total amount of the Sale transactions whose
creation day carries the "dd/mm" label k. -/
def sumSaleAmountsWithKey (ts : List Txn) (k : Nat × Nat) : Int :=
  ((ts.filter (fun t => isSale t && decide (dayKey t.created_at = k))).map (fun t => t.amount)).sum

/-- Specification-side sum: total Sale amount of the transactions whose
week label (label of the Monday beginning their week) is k. -/
def ventesWithWeekKey (ts : List Txn) (k : Nat × Nat) : Int :=
  ((ts.filter (fun t => isSale t && decide (weekKey t = k))).map (fun t => t.amount)).sum

/-- Specification-side sum: total Expense plus Withdrawal amount of the
transactions whose week label is k. -/
def depensesWithWeekKey (ts : List Txn) (k : Nat × Nat) : Int :=
  ((ts.filter (fun t => isExpenseLike t && decide (weekKey t = k))).map (fun t => t.amount)).sum

/-- Specification-side sum: total Sale amount of the transactions whose
week starts exactly on the Monday with day number w. -/
def ventesOfMonday (ts : List Txn) (w : Int) : Int :=
  ((ts.filter (fun t => isSale t && decide (mondayOf t.created_at = w))).map (fun t => t.amount)).sum

/-- Specification-side sum: total Expense plus Withdrawal amount of the
transactions whose week starts exactly on the Monday with day number w. -/
def depensesOfMonday (ts : List Txn) (w : Int) : Int :=
  ((ts.filter (fun t => isExpenseLike t && decide (mondayOf t.created_at = w))).map (fun t => t.amount)).sum

/-- Specification-side sum: total revenue of the named Sale transactions
carrying the product name n. -/
def revenueOfName (ts : List Txn) (n : String) : Int :=
  ((ts.filter (fun t => isNamedSale t && decide (nameOf t = n))).map (fun t => t.amount)).sum

/-- Specification-side sum: total quantity (missing treated as 0) of the
named Sale transactions carrying the product name n. -/
def qtyOfName (ts : List Txn) (n : String) : Nat :=
  ((ts.filter (fun t => isNamedSale t && decide (nameOf t = n))).map (fun t => t.quantity.getD 0)).sum

/-- Applying a fold of keyed map updates to one key selects exactly the
elements whose key matches and folds the combining step over them. -/
theorem foldl_update_apply {α β γ : Type} [DecidableEq β] (f : α → β) (g : γ → α → γ)
    (l : List α) (m0 : β → γ) (k : β) :
    (l.foldl (fun m x => fun k2 => if k2 = f x then g (m k2) x else m k2) m0) k
      = (l.filter (fun x => decide (f x = k))).foldl g (m0 k) := by
  induction l generalizing m0 with
  | nil => rfl
  | cons x xs ih =>
    simp only [List.foldl_cons, List.filter_cons]
    by_cases h : f x = k
    · rw [if_pos (decide_eq_true h), List.foldl_cons, ih]
      congr 1
      simp [h]
    · rw [if_neg (by simp [h]), ih]
      congr 1
      rw [if_neg (fun hk => h hk.symm)]

/-- Folding addition of a projection over a list starting from a equals
a plus the sum of the projections. -/
theorem foldl_add_eq_sum {α M : Type} [AddCommMonoid M] (g : α → M) (l : List α) (a : M) :
    l.foldl (fun s x => s + g x) a = a + (l.map g).sum := by
  induction l generalizing a with
  | nil => simp
  | cons x xs ih => simp [ih, add_assoc]

/-- Componentwise version of foldl_add_eq_sum for a pair accumulator. -/
theorem foldl_pair_eq_sum {α M N : Type} [AddCommMonoid M] [AddCommMonoid N]
    (g1 : α → M) (g2 : α → N) (l : List α) (p : M × N) :
    l.foldl (fun q x => (q.1 + g1 x, q.2 + g2 x)) p
      = (p.1 + (l.map g1).sum, p.2 + (l.map g2).sum) := by
  induction l generalizing p with
  | nil => simp
  | cons x xs ih => simp [ih, add_assoc]

/-- Summing a conditional projection equals summing the projection over
the filtered list. -/
theorem sum_map_ite {α M : Type} [AddCommMonoid M] (p : α → Bool) (g : α → M) (l : List α) :
    (l.map (fun x => if p x then g x else 0)).sum = ((l.filter p).map g).sum := by
  induction l with
  | nil => rfl
  | cons x xs ih =>
    by_cases h : p x <;> simp [h, ih]

/-- Membership in a fold of insertKey steps: the collected keys are the
initial ones plus the keys of the traversed elements. -/
theorem mem_foldl_insertKey {α β : Type} [DecidableEq β] (f : α → β) (l : List α)
    (acc : List β) (k : β) :
    (k ∈ l.foldl (fun a x => insertKey a (f x)) acc) ↔ k ∈ acc ∨ ∃ x ∈ l, f x = k := by
  induction l generalizing acc with
  | nil => simp
  | cons x xs ih =>
    simp only [List.foldl_cons, ih, List.mem_cons]
    have hmem : (k ∈ insertKey acc (f x)) ↔ k ∈ acc ∨ k = f x := by
      unfold insertKey
      split
      · constructor
        · intro hk
          exact Or.inl hk
        · intro hk
          rcases hk with hk | hk
          · exact hk
          · rw [hk]
            assumption
      · simp [List.mem_append]
    rw [hmem]
    constructor
    · rintro (( h | h ) | ⟨y, hy, hfy⟩)
      · exact Or.inl h
      · exact Or.inr ⟨x, Or.inl rfl, h.symm⟩
      · exact Or.inr ⟨y, Or.inr hy, hfy⟩
    · rintro (h | ⟨y, (hy | hy), hfy⟩)
      · exact Or.inl (Or.inl h)
      · exact Or.inl (Or.inr (hy ▸ hfy.symm))
      · exact Or.inr ⟨y, hy, hfy⟩

/-- A fold of insertKey steps preserves the no-duplicates invariant of
the collected key list. -/
theorem nodup_foldl_insertKey {α β : Type} [DecidableEq β] (f : α → β) (l : List α)
    (acc : List β) (h : acc.Nodup) :
    (l.foldl (fun a x => insertKey a (f x)) acc).Nodup := by
  induction l generalizing acc with
  | nil => exact h
  | cons x xs ih =>
    refine ih _ ?_
    show (insertKey acc (f x)).Nodup
    unfold insertKey
    by_cases hx : f x ∈ acc
    · simpa [hx] using h
    · simp [hx, List.nodup_append, h]

/-- Boolean Sale test unfolded to a propositional equality on the kind. -/
theorem isSale_iff (t : Txn) : isSale t = true ↔ t.type = TxnType.Sale := by
  simp [isSale]

/-- Boolean Expense-or-Withdrawal test unfolded to propositional form. -/
theorem isExpenseLike_iff (t : Txn) :
    isExpenseLike t = true ↔ (t.type = TxnType.Expense ∨ t.type = TxnType.Withdrawal) := by
  simp [isExpenseLike]

/-- Boolean resolvable-named-Sale test unfolded: the transaction is a
Sale and carries a product object with a nonempty name. -/
theorem isNamedSale_iff (t : Txn) :
    isNamedSale t = true ↔ t.type = TxnType.Sale ∧ ∃ n, t.product = some n ∧ n ≠ "" := by
  cases hp : t.product with
  | none => simp [isNamedSale, isSale, hp]
  | some n => simp [isNamedSale, isSale, hp]

/-- The daily sales map evaluated at a label equals the total Sale amount
carrying that label. -/
theorem salesMap_eq_sum (ts : List Txn) (k : Nat × Nat) :
    salesMap ts k = sumSaleAmountsWithKey ts k := by
  unfold salesMap sumSaleAmountsWithKey
  have h1 := foldl_update_apply (fun t : Txn => dayKey t.created_at)
    (fun (s : Int) (t : Txn) => s + t.amount) (ts.filter isSale) (fun _ => (0 : Int)) k
  rw [h1, foldl_add_eq_sum, List.filter_filter]
  simp [Bool.and_comm]

/-- The weekly map evaluated at a label equals the pair of per-label
Sale and Expense-plus-Withdrawal sums. -/
theorem weekMap_eq_sum (ts : List Txn) (k : Nat × Nat) :
    weekMap ts k = (ventesWithWeekKey ts k, depensesWithWeekKey ts k) := by
  unfold weekMap ventesWithWeekKey depensesWithWeekKey
  have h1 := foldl_update_apply weekKey
    (fun (q : Int × Int) (t : Txn) =>
      (q.1 + (if isSale t then t.amount else 0), q.2 + (if isExpenseLike t then t.amount else 0)))
    ts (fun _ => ((0 : Int), (0 : Int))) k
  rw [h1, foldl_pair_eq_sum, sum_map_ite, sum_map_ite,
    List.filter_filter, List.filter_filter]
  simp

/-- The ranking map evaluated at a name equals the pair of per-name
quantity and revenue sums. -/
theorem prodMap_eq_sum (ts : List Txn) (n : String) :
    prodMap ts n = (qtyOfName ts n, revenueOfName ts n) := by
  unfold prodMap qtyOfName revenueOfName
  have h1 := foldl_update_apply nameOf
    (fun (q : Nat × Int) (t : Txn) => (q.1 + t.quantity.getD 0, q.2 + t.amount))
    (ts.filter isNamedSale) (fun _ => ((0 : Nat), (0 : Int))) n
  rw [h1, foldl_pair_eq_sum, List.filter_filter]
  simp [Bool.and_comm]

/-- The Transactions page fold equals the specification sum of Sale
quantities. -/
theorem totalItemsSold_eq_sum (ts : List Txn) :
    totalItemsSold ts = ((ts.filter isSale).map (fun t => t.quantity.getD 0)).sum := by
  unfold totalItemsSold
  rw [foldl_add_eq_sum]
  simp

/-- A label occurs among the daily map keys exactly when some Sale of
the list carries it. -/
theorem mem_salesKeys (ts : List Txn) (k : Nat × Nat) :
    k ∈ salesKeys ts ↔ ∃ t ∈ ts, isSale t = true ∧ dayKey t.created_at = k := by
  unfold salesKeys objKeys
  rw [mem_foldl_insertKey]
  simp only [List.not_mem_nil, false_or, List.mem_filter]
  constructor
  · rintro ⟨t, ⟨ht, hs⟩, hk⟩
    exact ⟨t, ht, hs, hk⟩
  · rintro ⟨t, ht, hs, hk⟩
    exact ⟨t, ⟨ht, hs⟩, hk⟩

/-- The daily map keys contain no duplicates. -/
theorem nodup_salesKeys (ts : List Txn) : (salesKeys ts).Nodup := by
  unfold salesKeys objKeys
  exact nodup_foldl_insertKey _ _ _ List.nodup_nil

/-- A label occurs among the weekly map keys exactly when some
transaction of the list buckets to it. -/
theorem mem_weekKeys (ts : List Txn) (k : Nat × Nat) :
    k ∈ weekKeys ts ↔ ∃ t ∈ ts, weekKey t = k := by
  unfold weekKeys objKeys
  rw [mem_foldl_insertKey]
  simp

/-- The weekly map keys contain no duplicates. -/
theorem nodup_weekKeys (ts : List Txn) : (weekKeys ts).Nodup := by
  unfold weekKeys objKeys
  exact nodup_foldl_insertKey _ _ _ List.nodup_nil

/-- A name occurs among the ranking map keys exactly when some resolvable
named Sale of the list carries it. -/
theorem mem_prodKeys (ts : List Txn) (n : String) :
    n ∈ prodKeys ts ↔ ∃ t ∈ ts, isNamedSale t = true ∧ nameOf t = n := by
  unfold prodKeys objKeys
  rw [mem_foldl_insertKey]
  simp only [List.not_mem_nil, false_or, List.mem_filter]
  constructor
  · rintro ⟨t, ⟨ht, hs⟩, hk⟩
    exact ⟨t, ht, hs, hk⟩
  · rintro ⟨t, ht, hs, hk⟩
    exact ⟨t, ⟨ht, hs⟩, hk⟩

/-- The ranking map keys contain no duplicates. -/
theorem nodup_prodKeys (ts : List Txn) : (prodKeys ts).Nodup := by
  unfold prodKeys objKeys
  exact nodup_foldl_insertKey _ _ _ List.nodup_nil

/-- The day loop enumerates (d1 - d0) + 1 days when the range is not
inverted. -/
theorem length_rangeDays (d0 d1 : Int) (h : d0 ≤ d1) :
    (rangeDays d0 d1).length = (d1 - d0).toNat + 1 := by
  unfold rangeDays
  rw [if_pos h, List.length_map, List.length_range]

/-- The i-th day enumerated by the loop is d0 + i. -/
theorem get_rangeDays (d0 d1 : Int) (h : d0 ≤ d1) (i : Nat)
    (hi : i < (rangeDays d0 d1).length) :
    (rangeDays d0 d1).get ⟨i, hi⟩ = d0 + i := by
  have hl : rangeDays d0 d1
      = (List.range ((d1 - d0).toNat + 1)).map (fun j : Nat => d0 + (j : Int)) := by
    unfold rangeDays
    rw [if_pos h]
  revert hi
  rw [hl]
  intro hi
  simp

/-- A catalog product with the fields the pages read: identifier, name,
optional category, selling price, and stock count. -/
structure Product where
  id : String
  name : String
  category : Option String
  selling_price : Int
  stock : Nat
deriving DecidableEq

/-- Presentation colors used by the stock badges. -/
inductive StockColor where
  | red
  | orange
  | green
deriving DecidableEq

/-- Stock color of a product card on the Products page: red when the
stock is 0, orange when it is below 5, green otherwise. -/
def productStockColor (p : Product) : StockColor :=
  if p.stock = 0 then StockColor.red
  else if p.stock < 5 then StockColor.orange
  else StockColor.green

/-- Badge color of a row of the Dashboard low-stock table: red when the
stock is 0, orange otherwise (the rows shown all have stock below 5). -/
def lowStockBadge (stock : Nat) : StockColor :=
  if stock = 0 then StockColor.red else StockColor.orange

/-- Modelled from the spec: the computation of
DashboardSummary.low_stock_products happens in the backend, which is not
part of this repository (the Dashboard only renders the list it
receives).  Per the specification the selection threshold is stock < 5,
always including stock = 0. -/
def low_stock_products (ps : List Product) : List Product :=
  ps.filter (fun p => p.stock < 5)

/-- State of the New Transaction form.  The numeric inputs hold strings;
each is modelled by the integer its string parses to, or none when the
string is empty (the only falsy string). -/
structure TxnForm where
  type : TxnType
  product_id : String
  quantity : Option Int
  amount : Option Int
  comment : String
deriving DecidableEq

/-- The handleQuantityChange handler: when the selected product is found
in the catalog and the new quantity field is nonempty, the amount field
is set to selling_price times the parsed quantity; otherwise only the
quantity field changes. -/
def handleQuantityChange (products : List Product) (fd : TxnForm) (q : Option Int) : TxnForm :=
  match products.find? (fun p => p.id == fd.product_id), q with
  | some product, some n =>
      { fd with quantity := some n, amount := some (product.selling_price * n) }
  | _, _ => { fd with quantity := q }

/-- Editing the Amount input stores the typed value in the form state;
the field keeps its own onChange handler even for sales (the label reads
auto-calculé, modifiable). -/
def setAmountField (fd : TxnForm) (a : Option Int) : TxnForm :=
  { fd with amount := a }

/-- Payload of createTransaction as assembled by handleSubmit. -/
structure TxnRequest where
  type : TxnType
  amount : Option Int
  comment : Option String
  product_id : Option String
  quantity : Option Int
deriving DecidableEq

/-- The handleSubmit handler: builds the request from the form state.
For a Sale it requires a selected product and a nonempty quantity field,
stopping with an error (none) otherwise, and attaches product_id and the
parsed quantity; other kinds never carry product or quantity. -/
def handleSubmit (fd : TxnForm) : Option TxnRequest :=
  let base : TxnRequest :=
    { type := fd.type, amount := fd.amount,
      comment := if fd.comment == "" then none else some fd.comment,
      product_id := none, quantity := none }
  if fd.type = TxnType.Sale then
    if fd.product_id == "" || fd.quantity.isNone then none
    else some { base with product_id := some fd.product_id, quantity := fd.quantity }
  else some base

/-- Claim-side reading of the week-bucket contract: every bucket of the
weekly chart is labelled by a single true calendar Monday whose week
gathers exactly the sums shown in the bucket. -/
def weekBucketsPerMonday (ts : List Txn) : Prop :=
  ∀ b ∈ salesVsExpenses ts, ∃ w : Int, dayOfWeek w = 1 ∧ b.semaine = dayKey w ∧
    b.ventes = ventesOfMonday ts w ∧ b.depenses = depensesOfMonday ts w

/-- A Sale recorded on 2023-05-01 (day 19478), whose "dd/mm" label 01/05
is shared with 2024-05-01 (day 19844). -/
def saleMay2023 : Txn :=
  { id := "s1", type := TxnType.Sale, product := none, quantity := some 1,
    amount := 10, created_at := 19478 }

/-- A Sale recorded on Monday 2018-01-01 (day 17532). -/
def saleJan2018 : Txn :=
  { id := "a", type := TxnType.Sale, product := none, quantity := some 1,
    amount := 10, created_at := 17532 }

/-- An Expense recorded on Monday 2024-01-01 (day 19723); its week label
01/01 coincides with the label of the week of saleJan2018. -/
def expenseJan2024 : Txn :=
  { id := "b", type := TxnType.Expense, product := none, quantity := none,
    amount := 5, created_at := 19723 }

/-- A Sale recorded on 2024-01-15 (day 19737, label 15/01). -/
def saleJan15 : Txn :=
  { id := "x", type := TxnType.Sale, product := some "A", quantity := some 2,
    amount := 7, created_at := 19737 }

/-- A Sale recorded on 2024-01-10 (day 19732, label 10/01). -/
def saleJan10 : Txn :=
  { id := "y", type := TxnType.Sale, product := some "B", quantity := some 1,
    amount := 3, created_at := 19732 }

/-- A Sale form state whose quantity field holds the string "0": the
string is nonempty, hence truthy, so the submit guard passes. -/
def zeroQtyForm : TxnForm :=
  { type := TxnType.Sale, product_id := "p1", quantity := some 0,
    amount := some 5, comment := "" }

/-- The daily point the closed-range series should show for day d: the
day label together with the per-label Sale total. -/
def dayPointAt (ts : List Txn) (d : Int) : DayPoint :=
  { date := dayKey d, ventes := sumSaleAmountsWithKey ts (dayKey d) }

/-- The point the open-range series shows for a label k. -/
def openPointAt (ts : List Txn) (k : Nat × Nat) : DayPoint :=
  { date := k, ventes := sumSaleAmountsWithKey ts k }

/-- The weekly bucket shown for a label k: the label with the pair of
accumulated sums. -/
def weekPointAt (ts : List Txn) (k : Nat × Nat) : WeekPoint :=
  { semaine := k, ventes := (weekMap ts k).1, depenses := (weekMap ts k).2 }

/-- The ranking row shown for a product name n: the name with the
accumulated quantity and revenue. -/
def prodPointAt (ts : List Txn) (n : String) : ProductPoint :=
  { produit := n, quantite := (prodMap ts n).1, montant := (prodMap ts n).2 }

/-- The week start computed by the Dashboard setDate arithmetic always
falls on a Monday. -/
theorem dayOfWeek_mondayOf (n : Int) : dayOfWeek (mondayOf n) = 1 := by
  show ((n - ((n + 4) % 7 + 6) % 7) + 4) % 7 = 1
  omega

/-- The week start never lies after the day itself. -/
theorem mondayOf_le (n : Int) : mondayOf n ≤ n := by
  show n - ((n + 4) % 7 + 6) % 7 ≤ n
  omega

/-- The week start lies less than seven days before the day. -/
theorem sub_mondayOf_lt (n : Int) : n - mondayOf n < 7 := by
  show n - (n - ((n + 4) % 7 + 6) % 7) < 7
  omega

/-- A Sunday is assigned to the Monday six days earlier (the preceding
week start, not the following one). -/
theorem mondayOf_sunday (n : Int) (h : dayOfWeek n = 0) : mondayOf n = n - 6 := by
  have h2 : (n + 4) % 7 = 0 := h
  show n - ((n + 4) % 7 + 6) % 7 = n - 6
  omega

/-- A label carried by no Sale of the list sums to zero. -/
theorem sumSaleAmountsWithKey_eq_zero (ts : List Txn) (k : Nat × Nat)
    (h : ∀ t ∈ ts, t.type = TxnType.Sale → dayKey t.created_at ≠ k) :
    sumSaleAmountsWithKey ts k = 0 := by
  unfold sumSaleAmountsWithKey
  rw [List.filter_eq_nil_iff.mpr]
  · rfl
  · intro t ht
    simp only [isSale, Bool.and_eq_true, beq_iff_eq, decide_eq_true_eq, not_and]
    exact h t ht

/-- C5: for every transaction list, the total-items-sold aggregate equals
the sum of the quantity field over Sale-kind transactions only, a
missing quantity counting as 0; prepending an Expense or Withdrawal
never changes the total. -/
theorem totalItemsSold_spec (ts : List Txn) :
    totalItemsSold ts = ((ts.filter isSale).map (fun t => t.quantity.getD 0)).sum ∧
    ∀ e : Txn, e.type = TxnType.Expense ∨ e.type = TxnType.Withdrawal →
      totalItemsSold (e :: ts) = totalItemsSold ts := by
  constructor
  · exact totalItemsSold_eq_sum ts
  · intro e he
    have hne : isSale e = false := by
      rcases he with h | h <;> simp [isSale, h]
    unfold totalItemsSold
    rw [List.filter_cons_of_neg]
    simp [hne]

/-- Witness for C5 at a concrete list: one Sale of quantity 2 with a
quantity-less Expense in front. -/
theorem totalItemsSold_witness :
    (expenseJan2024.type = TxnType.Expense ∨ expenseJan2024.type = TxnType.Withdrawal) ∧
    totalItemsSold (expenseJan2024 :: [saleJan15]) = totalItemsSold [saleJan15] :=
  ⟨Or.inl rfl, (totalItemsSold_spec [saleJan15]).2 expenseJan2024 (Or.inl rfl)⟩

/-- C6: an inverted date range (start after end) yields the empty series
rather than failing. -/
theorem salesByDay_inverted_spec (ts : List Txn) (d0 d1 : Int) (h : d1 < d0) :
    salesByDay (some d0, some d1) ts = [] := by
  have hr : rangeDays d0 d1 = [] := by
    unfold rangeDays
    rw [if_neg (by omega)]
  simp [salesByDay, hr]

/-- Witness for C6 at a concrete inverted range. -/
theorem salesByDay_inverted_witness :
    (3 : Int) < 5 ∧ salesByDay (some 5, some 3) [saleJan15] = [] :=
  ⟨by decide, salesByDay_inverted_spec [saleJan15] 5 3 (by decide)⟩

/-- C8: low-stock selection is exactly the predicate stock < 5 (never a
product with stock at least 5, always every product below 5), and within
the selected set stock 0 renders as the red tier while stock 1 to 4
renders orange, both in the Dashboard table badge and on the product
card. -/
theorem lowStock_spec (ps : List Product) :
    (∀ p : Product, p ∈ low_stock_products ps ↔ p ∈ ps ∧ p.stock < 5) ∧
    (∀ p : Product, p ∈ ps → 5 ≤ p.stock → p ∉ low_stock_products ps) ∧
    (∀ p ∈ low_stock_products ps,
      (p.stock = 0 →
        lowStockBadge p.stock = StockColor.red ∧ productStockColor p = StockColor.red) ∧
      (p.stock ≠ 0 →
        1 ≤ p.stock ∧ p.stock ≤ 4 ∧
        lowStockBadge p.stock = StockColor.orange ∧ productStockColor p = StockColor.orange)) := by
  have hmem : ∀ p : Product, p ∈ low_stock_products ps ↔ p ∈ ps ∧ p.stock < 5 := by
    intro p
    unfold low_stock_products
    simp [List.mem_filter]
  refine ⟨hmem, ?_, ?_⟩
  · intro p hp h5 hlow
    have := (hmem p).mp hlow
    omega
  · intro p hp
    have hlt : p.stock < 5 := ((hmem p).mp hp).2
    constructor
    · intro h0
      unfold lowStockBadge productStockColor
      rw [if_pos h0, if_pos h0]
      exact ⟨rfl, rfl⟩
    · intro h0
      refine ⟨by omega, by omega, ?_, ?_⟩
      · unfold lowStockBadge
        rw [if_neg h0]
      · unfold productStockColor
        rw [if_neg h0, if_pos hlt]

/-- A demonstration product with stock 3 (inside the low-stock band). -/
def demoProduct : Product :=
  { id := "p", name := "P", category := none, selling_price := 2, stock := 3 }

/-- Witness for C8 at a singleton catalog with stock 3. -/
theorem lowStock_witness :
    demoProduct ∈ low_stock_products [demoProduct] ∧
    productStockColor demoProduct = StockColor.orange := by
  have hmem : demoProduct ∈ low_stock_products [demoProduct] :=
    ((lowStock_spec [demoProduct]).1 demoProduct).mpr ⟨by simp, by decide⟩
  refine ⟨hmem, ?_⟩
  have h := ((lowStock_spec [demoProduct]).2.2 demoProduct hmem).2 (by decide)
  exact h.2.2.2

/-- C9: with a product selected and found in the catalog, entering a
quantity sets the amount field to selling price times quantity; the
amount field stays editable and whatever value it stores is the amount
submitted by handleSubmit. -/
theorem saleAmount_spec (products : List Product) (fd : TxnForm) (p : Product) (n : Int)
    (hp : products.find? (fun q => q.id == fd.product_id) = some p) :
    (handleQuantityChange products fd (some n)).amount = some (p.selling_price * n) ∧
    ∀ (fd2 : TxnForm) (a : Option Int) (req : TxnRequest),
      handleSubmit (setAmountField fd2 a) = some req → req.amount = a := by
  constructor
  · unfold handleQuantityChange
    rw [hp]
  · intro fd2 a req h
    simp only [handleSubmit, setAmountField] at h
    split at h
    · split at h
      · exact Option.noConfusion h
      · have hreq := Option.some.inj h
        subst hreq
        rfl
    · have hreq := Option.some.inj h
      subst hreq
      rfl

/-- A demonstration catalog product with selling price 4. -/
def demoFormProduct : Product :=
  { id := "p1", name := "P", category := none, selling_price := 4, stock := 9 }

/-- A fresh Sale form with product p1 selected and nothing else filled. -/
def demoSaleForm : TxnForm :=
  { type := TxnType.Sale, product_id := "p1", quantity := none,
    amount := none, comment := "" }

/-- Witness for C9 at a one-product catalog and quantity 3. -/
theorem saleAmount_witness :
    ([demoFormProduct].find? (fun q => q.id == demoSaleForm.product_id)
        = some demoFormProduct) ∧
    (handleQuantityChange [demoFormProduct] demoSaleForm (some 3)).amount = some 12 :=
  ⟨by decide,
    (saleAmount_spec [demoFormProduct] demoSaleForm demoFormProduct 3 (by decide)).1⟩

/-- C10 (amended): every request issued by handleSubmit keeps the form
kind; a Sale request always carries the selected product identifier
(nonempty) and an integer-parsed quantity — the guard only rejects an
empty field, not a non-positive value — while Expense and Withdrawal
requests carry neither product nor quantity. -/
theorem handleSubmit_shape_spec (fd : TxnForm) (req : TxnRequest)
    (h : handleSubmit fd = some req) :
    (req.type = TxnType.Sale →
      req.product_id = some fd.product_id ∧ fd.product_id ≠ "" ∧
      ∃ n : Int, req.quantity = some n) ∧
    (req.type = TxnType.Expense ∨ req.type = TxnType.Withdrawal →
      req.product_id = none ∧ req.quantity = none) := by
  simp only [handleSubmit] at h
  split at h
  case isTrue ht =>
    split at h
    case isTrue hg => exact Option.noConfusion h
    case isFalse hg =>
      have hreq := Option.some.inj h
      subst hreq
      simp only [Bool.or_eq_true, beq_iff_eq, Option.isNone_iff_eq_none, not_or] at hg
      constructor
      · intro _
        refine ⟨rfl, hg.1, ?_⟩
        cases hq : fd.quantity with
        | none => exact absurd hq hg.2
        | some n => exact ⟨n, by simp [hq]⟩
      · intro hcon
        rcases hcon with hc | hc <;> simp_all
  case isFalse ht =>
    have hreq := Option.some.inj h
    subst hreq
    constructor
    · intro hc
      exact absurd hc ht
    · intro _
      exact ⟨rfl, rfl⟩

/-- The request that handleSubmit builds from zeroQtyForm. -/
def zeroQtyRequest : TxnRequest :=
  { type := TxnType.Sale, amount := some 5, comment := none,
    product_id := some "p1", quantity := some 0 }

/-- C10 counterexample: a Sale form whose quantity field holds the
nonempty string "0" passes the guard, and the issued request carries
quantity 0, which is not a positive integer. -/
theorem handleSubmit_zero_qty_cex :
    handleSubmit zeroQtyForm = some zeroQtyRequest ∧
    zeroQtyRequest.quantity = some 0 ∧ ¬ (0 : Int) > 0 := by
  refine ⟨by decide, by decide, by decide⟩

/-- Witness for C10 applied to the zero-quantity form. -/
theorem handleSubmit_shape_witness :
    handleSubmit zeroQtyForm = some zeroQtyRequest ∧
    zeroQtyRequest.product_id = some "p1" ∧
    ∃ n : Int, zeroQtyRequest.quantity = some n := by
  have h := handleSubmit_shape_spec zeroQtyForm zeroQtyRequest (by decide)
  exact ⟨by decide, (h.1 rfl).1, (h.1 rfl).2.2⟩

/-- C1 (amended): over a valid range the daily series has exactly one
point per calendar day, in ascending date order (point i stands for day
d0 + i), so its length is (d1 - d0) + 1; each point carries the total of
the Sale amounts sharing its "dd/mm" label — the label omits the year,
so equal-label days of other years contribute too — and a label carried
by no Sale shows 0. -/
theorem salesByDay_range_spec (ts : List Txn) (d0 d1 : Int) (h : d0 ≤ d1) :
    salesByDay (some d0, some d1) ts
      = (List.range ((d1 - d0).toNat + 1)).map (fun i : Nat => dayPointAt ts (d0 + (i : Int))) ∧
    (salesByDay (some d0, some d1) ts).length = (d1 - d0).toNat + 1 ∧
    (∀ i : Nat, ∀ hi : i < (salesByDay (some d0, some d1) ts).length,
      (∀ t ∈ ts, t.type = TxnType.Sale → dayKey t.created_at ≠ dayKey (d0 + (i : Int))) →
      ((salesByDay (some d0, some d1) ts).get ⟨i, hi⟩).ventes = 0) := by
  have hfirst : salesByDay (some d0, some d1) ts
      = (List.range ((d1 - d0).toNat + 1)).map (fun i : Nat => dayPointAt ts (d0 + (i : Int))) := by
    show (rangeDays d0 d1).map
        (fun d => ({ date := dayKey d, ventes := salesMap ts (dayKey d) } : DayPoint))
      = (List.range ((d1 - d0).toNat + 1)).map (fun i : Nat => dayPointAt ts (d0 + (i : Int)))
    have hr : rangeDays d0 d1
        = (List.range ((d1 - d0).toNat + 1)).map (fun i : Nat => d0 + (i : Int)) := by
      unfold rangeDays
      rw [if_pos h]
    rw [hr, List.map_map]
    refine List.map_congr_left ?_
    intro i _
    simp [Function.comp, dayPointAt, salesMap_eq_sum]
  refine ⟨hfirst, ?_, ?_⟩
  · rw [hfirst, List.length_map, List.length_range]
  · intro i hi hnone
    revert hi
    rw [hfirst]
    intro hi
    simp only [List.get_eq_getElem, List.getElem_map, List.getElem_range]
    exact sumSaleAmountsWithKey_eq_zero ts _ hnone

/-- Witness for C1 at the two-day range 0..1 over the empty list. -/
theorem salesByDay_range_witness :
    (0 : Int) ≤ 1 ∧
    (salesByDay (some 0, some 1) ([] : List Txn)).length = ((1 : Int) - 0).toNat + 1 :=
  ⟨by decide, (salesByDay_range_spec [] 0 1 (by decide)).2.1⟩

/-- C1 counterexample: over the one-day range 2024-05-01..2024-05-01, a
Sale time-stamped 2023-05-01 (same "01/05" label, different calendar
day) is counted into the single point, although no Sale falls on that
calendar day. -/
theorem salesByDay_calendar_cex :
    salesByDay (some 19844, some 19844) [saleMay2023]
      = [{ date := (1, 5), ventes := 10 }] ∧
    sumSaleAmountsOnDay [saleMay2023] 19844 = 0 := by
  exact ⟨by decide, by decide⟩

/-- C7 (amended): with no date range the series has exactly one point
per distinct "dd/mm" label among the Sale transactions, each carrying
the per-label Sale total; the points come in first-occurrence order of
the labels, not sorted ascending. -/
theorem salesByDay_open_spec (ts : List Txn) :
    salesByDay (none, none) ts = (salesKeys ts).map (fun k => openPointAt ts k) ∧
    ((salesByDay (none, none) ts).map (fun p => p.date)).Nodup ∧
    (∀ k : Nat × Nat,
      k ∈ (salesByDay (none, none) ts).map (fun p => p.date) ↔
      ∃ t ∈ ts, t.type = TxnType.Sale ∧ dayKey t.created_at = k) ∧
    (∀ p ∈ salesByDay (none, none) ts, p.ventes = sumSaleAmountsWithKey ts p.date) := by
  have hfirst : salesByDay (none, none) ts
      = (salesKeys ts).map (fun k => openPointAt ts k) := by
    show (salesKeys ts).map (fun k => ({ date := k, ventes := salesMap ts k } : DayPoint))
      = (salesKeys ts).map (fun k => openPointAt ts k)
    refine List.map_congr_left ?_
    intro k _
    simp [openPointAt, salesMap_eq_sum]
  have hdates : (salesByDay (none, none) ts).map (fun p => p.date) = salesKeys ts := by
    have hcomp : ((fun p : DayPoint => p.date) ∘ fun k => openPointAt ts k) = id := by
      funext k
      rfl
    rw [hfirst, List.map_map, hcomp, List.map_id]
  refine ⟨hfirst, ?_, ?_, ?_⟩
  · rw [hdates]
    exact nodup_salesKeys ts
  · intro k
    rw [hdates, mem_salesKeys]
    simp only [isSale_iff]
  · intro p hp
    rw [hfirst] at hp
    obtain ⟨k, _, rfl⟩ := List.mem_map.mp hp
    rfl

/-- Witness for C7: the first point of the concrete two-sale series
carries the per-label sum. -/
theorem salesByDay_open_witness :
    ({ date := (15, 1), ventes := 7 } : DayPoint) ∈ salesByDay (none, none) [saleJan15, saleJan10] ∧
    ({ date := (15, 1), ventes := 7 } : DayPoint).ventes
      = sumSaleAmountsWithKey [saleJan15, saleJan10] ((15 : Nat), (1 : Nat)) :=
  ⟨by decide,
    (salesByDay_open_spec [saleJan15, saleJan10]).2.2.2 _ (by decide)⟩

/-- C7 counterexample: sales listed on 15/01 then 10/01 keep that
first-occurrence order in the open-range series, which is therefore not
ascending by day key. -/
theorem salesByDay_open_order_cex :
    (salesByDay (none, none) [saleJan15, saleJan10]).map (fun p => p.date)
      = [(15, 1), (10, 1)] ∧
    ¬ List.Sorted keyOrder [((15 : Nat), (1 : Nat)), ((10 : Nat), (1 : Nat))] := by
  constructor
  · decide
  · intro hs
    have hrel := List.rel_of_sorted_cons hs ((10 : Nat), (1 : Nat)) (by simp)
    unfold keyOrder at hrel
    omega

/-- C3: the weekly series is sorted ascending by the week-start label
(in the "dd/mm" string order the comparator uses) and contains a bucket
only for the week labels of the listed transactions; empty weeks are
never synthesized. -/
theorem salesVsExpenses_sorted_spec (ts : List Txn) :
    List.Sorted keyOrder ((salesVsExpenses ts).map (fun b => b.semaine)) ∧
    ∀ b ∈ salesVsExpenses ts, ∃ t ∈ ts, weekKey t = b.semaine := by
  have hkeys : (salesVsExpenses ts).map (fun b => b.semaine)
      = List.insertionSort keyOrder (weekKeys ts) := by
    show ((List.insertionSort keyOrder (weekKeys ts)).map
        (fun k => weekPointAt ts k)).map (fun b => b.semaine)
      = List.insertionSort keyOrder (weekKeys ts)
    have hcomp : ((fun b : WeekPoint => b.semaine) ∘ fun k => weekPointAt ts k) = id := by
      funext k
      rfl
    rw [List.map_map, hcomp, List.map_id]
  constructor
  · rw [hkeys]
    exact List.sorted_insertionSort keyOrder (weekKeys ts)
  · intro b hb
    have hb2 : b.semaine ∈ (salesVsExpenses ts).map (fun b => b.semaine) :=
      List.mem_map_of_mem _ hb
    rw [hkeys] at hb2
    have hb3 : b.semaine ∈ weekKeys ts :=
      ((List.perm_insertionSort keyOrder (weekKeys ts)).mem_iff).mp hb2
    exact (mem_weekKeys ts _).mp hb3

/-- Witness for C3: the single bucket of a one-Sale list comes from that
transaction. -/
theorem salesVsExpenses_sorted_witness :
    (⟨(1, 1), 10, 0⟩ : WeekPoint) ∈ salesVsExpenses [saleJan2018] ∧
    ∃ t ∈ [saleJan2018], weekKey t = ((1 : Nat), (1 : Nat)) := by
  have hb : (⟨(1, 1), 10, 0⟩ : WeekPoint) ∈ salesVsExpenses [saleJan2018] := by decide
  exact ⟨hb, (salesVsExpenses_sorted_spec [saleJan2018]).2 _ hb⟩

/-- C2 (amended): every bucket of the weekly chart is keyed by the
"dd/mm" label of the Monday beginning the week of at least one listed
transaction, its ventes is the total Sale amount of the transactions
whose week label equals the bucket label, and its dépenses the total
Expense plus Withdrawal amount of those; the week start is always a
Monday, never later than the day, less than 7 days earlier, and a
Sunday maps to the preceding Monday.  Mondays of different years that
share a label share one bucket. -/
theorem salesVsExpenses_bucket_spec (ts : List Txn) (b : WeekPoint)
    (hb : b ∈ salesVsExpenses ts) :
    (∃ t ∈ ts, dayKey (mondayOf t.created_at) = b.semaine) ∧
    b.ventes = ventesWithWeekKey ts b.semaine ∧
    b.depenses = depensesWithWeekKey ts b.semaine ∧
    (∀ n : Int, dayOfWeek (mondayOf n) = 1 ∧ mondayOf n ≤ n ∧ n - mondayOf n < 7) ∧
    (∀ n : Int, dayOfWeek n = 0 → mondayOf n = n - 6) := by
  have hb2 : b ∈ (List.insertionSort keyOrder (weekKeys ts)).map (fun k => weekPointAt ts k) := hb
  obtain ⟨k, hk, rfl⟩ := List.mem_map.mp hb2
  have hk2 : k ∈ weekKeys ts :=
    ((List.perm_insertionSort keyOrder (weekKeys ts)).mem_iff).mp hk
  obtain ⟨t, ht, hwk⟩ := (mem_weekKeys ts k).mp hk2
  refine ⟨⟨t, ht, hwk⟩, ?_, ?_, ?_, mondayOf_sunday⟩
  · show (weekMap ts k).1 = ventesWithWeekKey ts k
    rw [weekMap_eq_sum]
  · show (weekMap ts k).2 = depensesWithWeekKey ts k
    rw [weekMap_eq_sum]
  · exact fun n => ⟨dayOfWeek_mondayOf n, mondayOf_le n, sub_mondayOf_lt n⟩

/-- Witness for C2 at a one-Sale list: the bucket total is the per-label
Sale sum. -/
theorem salesVsExpenses_bucket_witness :
    (⟨(1, 1), 10, 0⟩ : WeekPoint) ∈ salesVsExpenses [saleJan2018] ∧
    (10 : Int) = ventesWithWeekKey [saleJan2018] ((1 : Nat), (1 : Nat)) := by
  have hb : (⟨(1, 1), 10, 0⟩ : WeekPoint) ∈ salesVsExpenses [saleJan2018] := by decide
  exact ⟨hb, (salesVsExpenses_bucket_spec [saleJan2018] _ hb).2.1⟩

/-- C2 counterexample: a Sale in the week of Monday 2018-01-01 and an
Expense in the week of Monday 2024-01-01 merge into the single bucket
labelled 01/01, whose pair of sums matches no single Monday. -/
theorem salesVsExpenses_monday_cex :
    ¬ weekBucketsPerMonday [saleJan2018, expenseJan2024] := by
  intro hclaim
  have hout : salesVsExpenses [saleJan2018, expenseJan2024] = [⟨(1, 1), 10, 5⟩] := by decide
  have hb : (⟨(1, 1), 10, 5⟩ : WeekPoint) ∈ salesVsExpenses [saleJan2018, expenseJan2024] := by
    rw [hout]
    exact List.mem_singleton_self _
  obtain ⟨w, hmon, hkey, hv, hd⟩ := hclaim _ hb
  have hventes : ∀ w2 : Int, ventesOfMonday [saleJan2018, expenseJan2024] w2
      = if (17532 : Int) = w2 then 10 else 0 := by
    intro w2
    unfold ventesOfMonday
    have h3 : mondayOf saleJan2018.created_at = 17532 := by decide
    simp only [List.filter_cons, List.filter_nil, h3]
    have h1 : isSale saleJan2018 = true := by decide
    have h2 : isSale expenseJan2024 = false := by decide
    rw [h1, h2]
    simp only [Bool.true_and, Bool.false_and, Bool.false_eq_true, if_false]
    by_cases hw : (17532 : Int) = w2
    · simp [hw, saleJan2018]
    · simp [hw]
  have hdep : ∀ w2 : Int, depensesOfMonday [saleJan2018, expenseJan2024] w2
      = if (19723 : Int) = w2 then 5 else 0 := by
    intro w2
    unfold depensesOfMonday
    have h3 : mondayOf expenseJan2024.created_at = 19723 := by decide
    simp only [List.filter_cons, List.filter_nil, h3]
    have h1 : isExpenseLike saleJan2018 = false := by decide
    have h2 : isExpenseLike expenseJan2024 = true := by decide
    rw [h1, h2]
    simp only [Bool.true_and, Bool.false_and, Bool.false_eq_true, if_false]
    by_cases hw : (19723 : Int) = w2
    · simp [hw, expenseJan2024]
    · simp [hw]
  rw [hventes w] at hv
  rw [hdep w] at hd
  by_cases hw : (17532 : Int) = w
  · rw [if_neg (by omega)] at hd
    exact absurd hd (by decide)
  · rw [if_neg hw] at hv
    exact absurd hv (by decide)

/-- C4: the ranking keeps at most 8 rows, sorted by non-increasing
revenue, one row per product name; every row comes from at least one
Sale carrying that resolvable name, and its montant and quantite are the
total revenue and total quantity of the Sales with that name. -/
theorem topProducts_spec (ts : List Txn) :
    (topProducts ts).length ≤ 8 ∧
    List.Sorted montantOrder (topProducts ts) ∧
    ((topProducts ts).map (fun e => e.produit)).Nodup ∧
    ∀ e ∈ topProducts ts,
      (∃ t ∈ ts, t.type = TxnType.Sale ∧ t.product = some e.produit ∧ e.produit ≠ "") ∧
      e.montant = revenueOfName ts e.produit ∧
      e.quantite = qtyOfName ts e.produit := by
  have hdef : topProducts ts = (List.insertionSort montantOrder
      ((prodKeys ts).map (fun n => prodPointAt ts n))).take 8 := rfl
  have hperm := List.perm_insertionSort montantOrder ((prodKeys ts).map (fun n => prodPointAt ts n))
  have hcomp : ((fun e : ProductPoint => e.produit) ∘ fun n => prodPointAt ts n) = id := by
    funext n
    rfl
  refine ⟨?_, ?_, ?_, ?_⟩
  · rw [hdef, List.length_take]
    exact min_le_left _ _
  · rw [hdef]
    exact (List.sorted_insertionSort montantOrder _).sublist (List.take_sublist _ _)
  · rw [hdef, List.map_take]
    refine List.Nodup.sublist (List.take_sublist _ _) ?_
    refine (List.Perm.nodup_iff (hperm.map (fun e => e.produit))).mpr ?_
    rw [List.map_map, hcomp, List.map_id]
    exact nodup_prodKeys ts
  · intro e he
    rw [hdef] at he
    have he2 : e ∈ List.insertionSort montantOrder
        ((prodKeys ts).map (fun n => prodPointAt ts n)) := List.take_subset _ _ he
    have he3 : e ∈ (prodKeys ts).map (fun n => prodPointAt ts n) := hperm.mem_iff.mp he2
    obtain ⟨n, hn, rfl⟩ := List.mem_map.mp he3
    obtain ⟨t, ht, hns, hnm⟩ := (mem_prodKeys ts n).mp hn
    obtain ⟨hsale, m, hpm, hme⟩ := (isNamedSale_iff t).mp hns
    have hmn : m = n := by
      rw [← hnm]
      unfold nameOf
      rw [hpm]
      rfl
    refine ⟨⟨t, ht, hsale, ?_, hmn ▸ hme⟩, ?_, ?_⟩
    · rw [hpm, hmn]
      rfl
    · show (prodMap ts n).2 = revenueOfName ts n
      rw [prodMap_eq_sum]
    · show (prodMap ts n).1 = qtyOfName ts n
      rw [prodMap_eq_sum]

/-- Witness for C4 at a one-Sale list. -/
theorem topProducts_witness :
    (topProducts [saleJan15]).length ≤ 8 ∧
    (⟨"A", 2, 7⟩ : ProductPoint) ∈ topProducts [saleJan15] ∧
    ∃ t ∈ [saleJan15], t.type = TxnType.Sale ∧ t.product = some "A" ∧ ("A" : String) ≠ "" := by
  have hb : (⟨"A", 2, 7⟩ : ProductPoint) ∈ topProducts [saleJan15] := by decide
  exact ⟨(topProducts_spec [saleJan15]).1, hb,
    ((topProducts_spec [saleJan15]).2.2.2 _ hb).1⟩

end ShopAgg
